import Mathlib

/-!
Verification of the core game logic of the Raja-Rani-Chor-Sipahi repository
(`app.py`): role assignment, round scoring, and the phase state machine
backed by the room store.

Modelling conventions for the shallow embedding of the Python source:
* A Python `dict` is embedded as an association list `List (String × α)`
  with Python's update semantics: assigning to an existing key updates the
  value in place (keeping its position), assigning to a fresh key appends.
* `random.shuffle(xs)` is modelled by passing the post-shuffle order of the
  list as an explicit argument; theorems quantify over all permutations.
* A Python expression `[p for p in xs if pred(p)][0]`, which raises
  `IndexError` on an empty result, is embedded as `(xs.filter pred).head?`;
  the crash is the `none` case, which propagates through the `Option` monad.
* `role_assignment[p]` (a `dict` lookup that raises `KeyError` on a missing
  key) is embedded as `dget`, returning `Option`; in the filters below a
  missing key simply fails the equality test against a role string, which
  agrees with the source on every input where all listed players are keys
  of the assignment (the situation all theorems below hypothesise).
-/

/-- Lookup in an association list embedding of a Python dict:
the value at the first matching key. -/
def dget {α : Type} (d : List (String × α)) (k : String) : Option α :=
  match d with
  | [] => none
  | (k', v) :: rest => if k = k' then some v else dget rest k

/-- `d[k] = v` on a Python dict: update the first matching key in place,
or append the pair if the key is absent. -/
def dinsert {α : Type} (d : List (String × α)) (k : String) (v : α) :
    List (String × α) :=
  match d with
  | [] => [(k, v)]
  | (k', v') :: rest =>
      if k = k' then (k', v) :: rest else (k', v') :: dinsert rest k v

/-- `dict(pairs)`: build a Python dict from a pair list by repeated
assignment (a later pair with a duplicate key overwrites the earlier one). -/
def dictOfPairs {α : Type} (ps : List (String × α)) : List (String × α) :=
  ps.foldl (fun d kv => dinsert d kv.1 kv.2) []

/-- Sum of the values of a points dict (used for the score-conservation
property). -/
def sumPoints (d : List (String × Int)) : Int :=
  (d.map Prod.snd).sum

/-- `assign_roles_5_players` (app.py:16-21): `dict(zip(shuffled, roles))`
where `shuffled` is the post-`random.shuffle` order of the player names. -/
def assign_roles_5_players (shuffled_players : List String) :
    List (String × String) :=
  dictOfPairs (shuffled_players.zip ["Raja", "Rani", "Mantri", "Sipahi", "Chor"])

/-- `assign_roles_4_players` (app.py:24-29). -/
def assign_roles_4_players (shuffled_players : List String) :
    List (String × String) :=
  dictOfPairs (shuffled_players.zip ["Raja", "Mantri", "Sipahi", "Chor"])

/-- `compute_roles_for_round` (app.py:295-300): dispatch on the player
count; any count other than 5 falls through to the 4-player assigner. -/
def compute_roles_for_round (player_ids : List String) (num_players : Nat) :
    List (String × String) :=
  if num_players = 5 then assign_roles_5_players player_ids
  else assign_roles_4_players player_ids

/-- `_eligible_hidden_players` (app.py:35-37): players whose role is
neither Raja nor Mantri. -/
def eligible_hidden_players (player_names : List String)
    (role_assignment : List (String × String)) : List String :=
  player_names.filter (fun p =>
    !(dget role_assignment p == some "Raja" ||
      dget role_assignment p == some "Mantri"))

/-- `_infer_sipahi_4p` (app.py:40-43): the first eligible hidden player
different from the guessed Chor; `[0]` on an empty list (an `IndexError`)
is the `none` case. -/
def infer_sipahi_4p (player_names : List String)
    (role_assignment : List (String × String)) (guessed_chor : String) :
    Option String :=
  ((eligible_hidden_players player_names role_assignment).filter
    (fun p => p ≠ guessed_chor)).head?

/-- `calculate_points_5_players` (app.py:46-91).  The `none` result models
the `IndexError` crash when some role has no holder. -/
def calculate_points_5_players (player_names : List String)
    (role_assignment : List (String × String))
    (mantri_guesses : String × String) (raja_rani_guess : String) :
    Option (List (String × Int)) := do
  let pts0 := player_names.foldl (fun d p => dinsert d p (0 : Int)) []
  let actual_chor ←
    (player_names.filter (fun p => dget role_assignment p == some "Chor")).head?
  let actual_sipahi ←
    (player_names.filter (fun p => dget role_assignment p == some "Sipahi")).head?
  let actual_rani ←
    (player_names.filter (fun p => dget role_assignment p == some "Rani")).head?
  let mantri_name ←
    (player_names.filter (fun p => dget role_assignment p == some "Mantri")).head?
  let raja_name ←
    (player_names.filter (fun p => dget role_assignment p == some "Raja")).head?
  let guessed_chor := mantri_guesses.1
  let guessed_sipahi := mantri_guesses.2
  let mantri_both_correct :=
    guessed_chor == actual_chor && guessed_sipahi == actual_sipahi
  let pts1 :=
    if mantri_both_correct then
      dinsert (dinsert pts0 mantri_name 500) actual_chor 0
    else
      dinsert (dinsert pts0 mantri_name 0) actual_chor 500
  let pts2 := dinsert pts1 actual_sipahi 250
  let pts3 :=
    if raja_rani_guess == actual_rani then
      dinsert pts2 raja_name 1000
    else
      let ptsr := dinsert pts2 raja_name 500
      dinsert ptsr actual_chor ((dget ptsr actual_chor).getD 0 + 500)
  let pts4 := dinsert pts3 actual_rani 750
  return pts4

/-- `calculate_points_4_players` (app.py:94-129). -/
def calculate_points_4_players (player_names : List String)
    (role_assignment : List (String × String))
    (mantri_guesses : String × String) : Option (List (String × Int)) := do
  let pts0 := player_names.foldl (fun d p => dinsert d p (0 : Int)) []
  let actual_chor ←
    (player_names.filter (fun p => dget role_assignment p == some "Chor")).head?
  let actual_sipahi ←
    (player_names.filter (fun p => dget role_assignment p == some "Sipahi")).head?
  let mantri_name ←
    (player_names.filter (fun p => dget role_assignment p == some "Mantri")).head?
  let raja_name ←
    (player_names.filter (fun p => dget role_assignment p == some "Raja")).head?
  let guessed_chor := mantri_guesses.1
  let guessed_sipahi := mantri_guesses.2
  let mantri_correct :=
    guessed_chor == actual_chor && guessed_sipahi == actual_sipahi
  let pts1 :=
    if mantri_correct then
      dinsert (dinsert pts0 mantri_name 500) actual_chor 0
    else
      dinsert (dinsert pts0 mantri_name 0) actual_chor 500
  let pts2 := dinsert pts1 raja_name 1000
  let pts3 := dinsert pts2 actual_sipahi 250
  return pts3

/-! ## The room store and the phase state machine

`main` (app.py:346-806) fetches a room snapshot, dispatches on the
snapshot's `current_phase`, and then mutates the authoritative store
through `update_room` / `insert_round_scores`.  We embed the store as a
single room row plus the append-only `round_scores` table, and each
in-round branch of `main` as a step function taking both the live store
`s` and the `fetched` snapshot the client dispatched on (they coincide
for a fresh client and differ for a stale one). -/

def PHASE_RAJA_REVEAL : String := "RAJA_REVEAL"

def PHASE_MANTRI_REVEAL : String := "MANTRI_REVEAL"

def PHASE_MANTRI_GUESS : String := "MANTRI_GUESS"

def PHASE_RAJA_GUESS : String := "RAJA_GUESS"

def PHASE_ROUND_RESULT : String := "ROUND_RESULT"

def PHASE_GAME_OVER : String := "GAME_OVER"

/-- A row of the `rooms` table (the fields `main` reads and writes;
`current_phase = none` is the lobby). -/
structure Room where
  room_code : String
  num_players : Nat
  num_rounds : Nat
  current_round : Nat
  current_phase : Option String
  current_roles : List (String × String)
  mantri_chor_guess : Option String
  mantri_sipahi_guess : Option String
  raja_rani_guess : Option String
  admin_name : String
  lobby_log : List String
  deriving Repr, DecidableEq

/-- The `updates` dict passed to `update_room`: a key is present when the
outer `Option` is `some`.  (For nullable columns the inner value is itself
an `Option`.) -/
structure RoomUpdates where
  num_players : Option Nat := none
  num_rounds : Option Nat := none
  current_round : Option Nat := none
  current_phase : Option (Option String) := none
  current_roles : Option (List (String × String)) := none
  mantri_chor_guess : Option (Option String) := none
  mantri_sipahi_guess : Option (Option String) := none
  raja_rani_guess : Option (Option String) := none
  admin_name : Option String := none
  lobby_log : Option (List String) := none

/-- app.py:267-268: `updates = {k: v for k, v in updates.items() if k != "admin_name"}`. -/
def strip_admin_key (u : RoomUpdates) : RoomUpdates :=
  { u with admin_name := none }

/-- Apply every key present in an updates dict to the row (what the
store's unconditional `.update(updates)` does). -/
def apply_room_updates (r : Room) (u : RoomUpdates) : Room where
  room_code := r.room_code
  num_players := u.num_players.getD r.num_players
  num_rounds := u.num_rounds.getD r.num_rounds
  current_round := u.current_round.getD r.current_round
  current_phase := u.current_phase.getD r.current_phase
  current_roles := u.current_roles.getD r.current_roles
  mantri_chor_guess := u.mantri_chor_guess.getD r.mantri_chor_guess
  mantri_sipahi_guess := u.mantri_sipahi_guess.getD r.mantri_sipahi_guess
  raja_rani_guess := u.raja_rani_guess.getD r.raja_rani_guess
  admin_name := u.admin_name.getD r.admin_name
  lobby_log := u.lobby_log.getD r.lobby_log

/-- `update_room` (app.py:259-274): strip `admin_name` from the updates,
then apply the rest unconditionally (no expected-phase precondition). -/
def update_room (r : Room) (u : RoomUpdates) : Room :=
  apply_room_updates r (strip_admin_key u)

/-- A row of the `round_scores` table. -/
structure ScoreRow where
  room_code : String
  player_name : String
  round_number : Nat
  points : Int
  deriving Repr, DecidableEq

/-- The authoritative store: the room row plus the append-only
`round_scores` table. -/
structure Store where
  room : Room
  round_scores : List ScoreRow
  deriving Repr, DecidableEq

/-- `insert_round_scores` (app.py:289-292): a plain insert, i.e. append. -/
def insert_round_scores (s : Store) (rows : List ScoreRow) : Store :=
  { s with round_scores := s.round_scores ++ rows }

/-- `update_room` acting on the store (the row addressed by `room_code`
is the store's single room). -/
def store_update_room (s : Store) (u : RoomUpdates) : Store :=
  { s with room := update_room s.room u }

/-- Outcome of one client's run through a phase branch of `main`:
`acted` mutated the store, `noChange` rendered a waiting/info view (or an
error message) and left the store untouched, `crashed` is an unhandled
exception. -/
inductive StepResult where
  | acted (s : Store)
  | noChange (s : Store)
  | crashed
  deriving Repr, DecidableEq

/-- The `MANTRI_GUESS` branch of `main` (app.py:612-674), for the acting
client identified by `actor`.  `players` is the fetched player list,
`chor_choice` the Chor pick and `sipahi_pick` the 5-player-mode Sipahi
pick from the form. -/
def mantri_guess_step (s : Store) (fetched : Room) (players : List String)
    (actor chor_choice sipahi_pick : String) : StepResult :=
  if fetched.current_phase ≠ some PHASE_MANTRI_GUESS then .noChange s else
  match players.find? (fun p => dget fetched.current_roles p == some "Mantri") with
  | none => .noChange s
  | some mantri_name =>
    if actor ≠ mantri_name then .noChange s else
    let hidden_names := eligible_hidden_players players fetched.current_roles
    let sipahi_choice? : Option String :=
      if fetched.num_players = 5 then some sipahi_pick
      else (hidden_names.filter (fun n => n ≠ chor_choice)).head?
    match sipahi_choice? with
    | none => .noChange s
    | some sipahi_choice =>
      if fetched.num_players = 4 then
        match calculate_points_4_players players fetched.current_roles
            (chor_choice, sipahi_choice) with
        | none => .crashed
        | some pts =>
          let rows := players.map (fun p =>
            ScoreRow.mk fetched.room_code p fetched.current_round
              ((dget pts p).getD 0))
          let s1 := insert_round_scores s rows
          .acted (store_update_room s1
            { mantri_chor_guess := some (some chor_choice),
              mantri_sipahi_guess := some (some sipahi_choice),
              current_phase := some (some PHASE_ROUND_RESULT) })
      else
        .acted (store_update_room s
          { mantri_chor_guess := some (some chor_choice),
            mantri_sipahi_guess := some (some sipahi_choice),
            current_phase := some (some PHASE_RAJA_GUESS) })

/-- The `RAJA_GUESS` branch of `main` (app.py:677-723).  The recorded
Mantri guesses are read back from the fetched room; a missing (`None`)
guess is modelled as `""` (player names are non-empty). -/
def raja_guess_step (s : Store) (fetched : Room) (players : List String)
    (actor rani_choice : String) : StepResult :=
  if fetched.current_phase ≠ some PHASE_RAJA_GUESS then .noChange s else
  match players.find? (fun p => dget fetched.current_roles p == some "Raja") with
  | none => .noChange s
  | some raja_name =>
    if actor ≠ raja_name then .noChange s else
    match calculate_points_5_players players fetched.current_roles
        (fetched.mantri_chor_guess.getD "", fetched.mantri_sipahi_guess.getD "")
        rani_choice with
    | none => .crashed
    | some pts =>
      let rows := players.map (fun p =>
        ScoreRow.mk fetched.room_code p fetched.current_round
          ((dget pts p).getD 0))
      let s1 := insert_round_scores s rows
      .acted (store_update_room s1
        { raja_rani_guess := some (some rani_choice),
          current_phase := some (some PHASE_ROUND_RESULT) })

/-- Admin actions available in the `ROUND_RESULT` branch of `main`. -/
inductive AdminAction where
  | advanceRound
  | finishGame
  deriving Repr, DecidableEq

/-- The `ROUND_RESULT` branch of `main` (app.py:726-780): the admin sees
a "Next Round" button only while `current_round < num_rounds`, and a
"Finish Game" button otherwise; non-admins only wait.  `shuffled` is the
post-shuffle order of the player names for the next round's role
assignment. -/
def round_result_step (s : Store) (fetched : Room) (players : List String)
    (actor : String) (act : AdminAction) (shuffled : List String) : StepResult :=
  if fetched.current_phase ≠ some PHASE_ROUND_RESULT then .noChange s else
  if actor ≠ fetched.admin_name then .noChange s else
  if fetched.current_round < fetched.num_rounds then
    match act with
    | .advanceRound =>
        .acted (store_update_room s
          { current_round := some (fetched.current_round + 1),
            current_phase := some (some PHASE_RAJA_REVEAL),
            current_roles := some (compute_roles_for_round shuffled fetched.num_players),
            mantri_chor_guess := some none,
            mantri_sipahi_guess := some none,
            raja_rani_guess := some none })
    | .finishGame => .noChange s
  else
    match act with
    | .advanceRound => .noChange s
    | .finishGame =>
        .acted (store_update_room s
          { current_phase := some (some PHASE_GAME_OVER) })

/-! ## Dictionary lemmas -/

theorem dget_dinsert {α : Type} (d : List (String × α)) (k k' : String) (v : α) :
    dget (dinsert d k v) k' = if k' = k then some v else dget d k' := by
  induction d with
  | nil =>
      by_cases h : k' = k <;> simp [dinsert, dget, h]
  | cons hd tl ih =>
      obtain ⟨k₀, v₀⟩ := hd
      by_cases hk : k = k₀
      · subst hk
        by_cases h' : k' = k <;> simp [dinsert, dget, h']
      · by_cases h' : k' = k₀
        · subst h'
          simp [dinsert, dget, hk, Ne.symm hk]
        · simp [dinsert, dget, hk, h', ih]

theorem dinsert_of_dget_none {α : Type} (d : List (String × α)) (k : String)
    (v : α) (h : dget d k = none) : dinsert d k v = d ++ [(k, v)] := by
  induction d with
  | nil => simp [dinsert]
  | cons hd tl ih =>
      obtain ⟨k₀, v₀⟩ := hd
      by_cases hk : k = k₀
      · simp [dget, hk] at h
      · simp [dget, hk] at h
        simp [dinsert, hk, ih h]

theorem dget_append_of_none {α : Type} (d₁ d₂ : List (String × α)) (k : String)
    (h : dget d₁ k = none) : dget (d₁ ++ d₂) k = dget d₂ k := by
  induction d₁ with
  | nil => simp
  | cons hd tl ih =>
      obtain ⟨k₀, v₀⟩ := hd
      by_cases hk : k = k₀
      · simp [dget, hk] at h
      · simp [dget, hk] at h
        simpa [dget, hk] using ih h

theorem foldl_dinsert_fresh {α : Type} (ps : List (String × α)) :
    ∀ acc : List (String × α), (ps.map Prod.fst).Nodup →
    (∀ k ∈ ps.map Prod.fst, dget acc k = none) →
    ps.foldl (fun d kv => dinsert d kv.1 kv.2) acc = acc ++ ps := by
  induction ps with
  | nil => intro acc _ _; simp
  | cons hd tl ih =>
      intro acc hnd hfresh
      obtain ⟨k₀, v₀⟩ := hd
      have hacc : dget acc k₀ = none := hfresh k₀ (by simp)
      have hstep : dinsert acc k₀ v₀ = acc ++ [(k₀, v₀)] :=
        dinsert_of_dget_none acc k₀ v₀ hacc
      have hnd' : (tl.map Prod.fst).Nodup := (List.nodup_cons.mp (by simpa using hnd)).2
      have hk₀ : k₀ ∉ tl.map Prod.fst := (List.nodup_cons.mp (by simpa using hnd)).1
      have hfresh' : ∀ k ∈ tl.map Prod.fst, dget (acc ++ [(k₀, v₀)]) k = none := by
        intro k hk
        have hne : k ≠ k₀ := fun he => hk₀ (he ▸ hk)
        have h₁ : dget acc k = none := hfresh k (by simp [hk])
        rw [dget_append_of_none _ _ _ h₁]
        simp [dget, hne]
      calc ((k₀, v₀) :: tl).foldl (fun d kv => dinsert d kv.1 kv.2) acc

          = tl.foldl (fun d kv => dinsert d kv.1 kv.2) (acc ++ [(k₀, v₀)]) := by
            simp [hstep]
        _ = (acc ++ [(k₀, v₀)]) ++ tl := ih _ hnd' hfresh'
        _ = acc ++ ((k₀, v₀) :: tl) := by simp

theorem dictOfPairs_eq_self {α : Type} (ps : List (String × α))
    (h : (ps.map Prod.fst).Nodup) : dictOfPairs ps = ps := by
  simpa [dictOfPairs] using foldl_dinsert_fresh ps [] h (by simp [dget])

theorem init_points_eq_map (ns : List String) (h : ns.Nodup) :
    ns.foldl (fun d p => dinsert d p (0 : Int)) [] =
      ns.map (fun p => (p, (0 : Int))) := by
  have h₁ : (ns.map (fun p => (p, (0 : Int)))).foldl
      (fun d kv => dinsert d kv.1 kv.2) [] = [] ++ ns.map (fun p => (p, (0 : Int))) :=
    foldl_dinsert_fresh _ [] (by simpa [List.map_map, Function.comp_def] using h)
      (by simp [dget])
  rw [List.foldl_map] at h₁
  simpa using h₁

theorem dinsert_map_of_mem (ns : List String) (f : String → Int) (k : String)
    (v : Int) (hnd : ns.Nodup) (hk : k ∈ ns) :
    dinsert (ns.map (fun p => (p, f p))) k v =
      ns.map (fun p => (p, if p = k then v else f p)) := by
  induction ns with
  | nil => simp at hk
  | cons a l ih =>
      have hnd' := List.nodup_cons.mp hnd
      by_cases hak : k = a
      · subst hak
        have : ∀ p ∈ l, (p, f p) = (p, if p = k then v else f p) := by
          intro p hp
          have : p ≠ k := fun he => hnd'.1 (he ▸ hp)
          simp [this]
        simp [dinsert, List.map_congr_left this]
      · have hk' : k ∈ l := by
          rcases List.mem_cons.mp hk with h | h
          · exact absurd h hak
          · exact h
        have hka : ¬a = k := fun he => hak he.symm
        simp [dinsert, hak, hka, ih hnd'.2 hk']

theorem dget_map_of_mem (ns : List String) (f : String → Int) (k : String)
    (hk : k ∈ ns) : dget (ns.map (fun p => (p, f p))) k = some (f k) := by
  induction ns with
  | nil => simp at hk
  | cons a l ih =>
      by_cases hak : k = a
      · subst hak; simp [dget]
      · have hk' : k ∈ l := by
          rcases List.mem_cons.mp hk with h | h
          · exact absurd h hak
          · exact h
        simp [dget, hak, ih hk']

theorem dget_map_of_not_mem (ns : List String) (f : String → Int) (k : String)
    (hk : k ∉ ns) : dget (ns.map (fun p => (p, f p))) k = none := by
  induction ns with
  | nil => simp [dget]
  | cons a l ih =>
      have hak : k ≠ a := fun he => hk (by simp [he])
      have hk' : k ∉ l := fun h => hk (by simp [h])
      simp [dget, hak, ih hk']

theorem sumPoints_map (ns : List String) (f : String → Int) :
    sumPoints (ns.map (fun p => (p, f p))) = (ns.map f).sum := by
  simp [sumPoints, List.map_map, Function.comp_def]

theorem filter_perm_singleton (ns canon : List String) (pred : String → Bool)
    (hperm : ns.Perm canon) (x : String) (h : canon.filter pred = [x]) :
    ns.filter pred = [x] := by
  have h2 := hperm.filter pred
  rw [h] at h2
  exact List.perm_singleton.mp h2

/-! ## Closed forms for the score calculators

A role assignment that is a bijection from the registered players onto the
role set is encoded by naming the holder of each role (`R`, `M`, `S`, `C`,
and in 5-player mode `Q` for Rani), requiring them pairwise distinct,
taking the player list to be an arbitrary permutation of them, and
requiring `dget` of the assignment to agree with the induced role map on
every registered player. -/

/-- The role map induced on the players by naming the Raja/Mantri/Sipahi
holders (everyone else is the Chor) in 4-player mode. -/
def roleOf4 (R M S : String) (p : String) : String :=
  if p = R then "Raja" else if p = M then "Mantri"
  else if p = S then "Sipahi" else "Chor"

/-- The role map induced in 5-player mode (`Q` is the Rani holder). -/
def roleOf5 (R Q M S : String) (p : String) : String :=
  if p = R then "Raja" else if p = Q then "Rani" else if p = M then "Mantri"
  else if p = S then "Sipahi" else "Chor"

/-- Per-player score of one 4-player round, as the source computes it. -/
def award4 (R M S C gc gs : String) (p : String) : Int :=
  if p = S then 250
  else if p = R then 1000
  else if p = C then (if gc == C && gs == S then 0 else 500)
  else if p = M then (if gc == C && gs == S then 500 else 0)
  else 0

/-- Per-player score of one 5-player round, as the source computes it. -/
def award5 (R Q M S C gc gs gr : String) (p : String) : Int :=
  if p = Q then 750
  else if p = R then (if gr == Q then 1000 else 500)
  else if p = S then 250
  else if p = C then
    (if gc == C && gs == S then 0 else 500) + (if gr == Q then 0 else 500)
  else if p = M then (if gc == C && gs == S then 500 else 0)
  else 0

theorem calc4_repr (R M S C : String) (ns : List String)
    (ra : List (String × String)) (gc gs : String)
    (hperm : ns.Perm [R, M, S, C])
    (hRM : R ≠ M) (hRS : R ≠ S) (hRC : R ≠ C)
    (hMS : M ≠ S) (hMC : M ≠ C) (hSC : S ≠ C)
    (hra : ∀ p ∈ ns, dget ra p = some (roleOf4 R M S p)) :
    calculate_points_4_players ns ra (gc, gs) =
      some (ns.map (fun p => (p, award4 R M S C gc gs p))) := by
  have hMR : ¬M = R := fun h => hRM h.symm
  have hSR : ¬S = R := fun h => hRS h.symm
  have hSM : ¬S = M := fun h => hMS h.symm
  have hCR : ¬C = R := fun h => hRC h.symm
  have hCM : ¬C = M := fun h => hMC h.symm
  have hCS : ¬C = S := fun h => hSC h.symm
  have hmR : R ∈ ns := hperm.mem_iff.mpr (by simp)
  have hmM : M ∈ ns := hperm.mem_iff.mpr (by simp)
  have hmS : S ∈ ns := hperm.mem_iff.mpr (by simp)
  have hmC : C ∈ ns := hperm.mem_iff.mpr (by simp)
  have hgR : dget ra R = some "Raja" := by simpa [roleOf4] using hra R hmR
  have hgM : dget ra M = some "Mantri" := by simpa [roleOf4, hMR] using hra M hmM
  have hgS : dget ra S = some "Sipahi" := by
    simpa [roleOf4, hSR, hSM] using hra S hmS
  have hgC : dget ra C = some "Chor" := by
    simpa [roleOf4, hCR, hCM, hCS] using hra C hmC
  have hcanon : ([R, M, S, C] : List String).Nodup := by
    simp [hRM, hRS, hRC, hMS, hMC, hSC]
  have hns : ns.Nodup := hperm.symm.nodup hcanon
  have hfC : ns.filter (fun p => dget ra p == some "Chor") = [C] :=
    filter_perm_singleton ns _ _ hperm C
      (by simp [List.filter, hgR, hgM, hgS, hgC])
  have hfS : ns.filter (fun p => dget ra p == some "Sipahi") = [S] :=
    filter_perm_singleton ns _ _ hperm S
      (by simp [List.filter, hgR, hgM, hgS, hgC])
  have hfM : ns.filter (fun p => dget ra p == some "Mantri") = [M] :=
    filter_perm_singleton ns _ _ hperm M
      (by simp [List.filter, hgR, hgM, hgS, hgC])
  have hfR : ns.filter (fun p => dget ra p == some "Raja") = [R] :=
    filter_perm_singleton ns _ _ hperm R
      (by simp [List.filter, hgR, hgM, hgS, hgC])
  have hinit := init_points_eq_map ns hns
  by_cases hb : (gc == C && gs == S) = true
  · simp only [calculate_points_4_players, hfC, hfS, hfM, hfR, hinit,
      List.head?, Bind.bind, Option.bind, hb, if_true]
    rw [dinsert_map_of_mem ns _ M 500 hns hmM,
      dinsert_map_of_mem ns _ C 0 hns hmC,
      dinsert_map_of_mem ns _ R 1000 hns hmR,
      dinsert_map_of_mem ns _ S 250 hns hmS]
    simp [award4, hb]
  · have hb' : (gc == C && gs == S) = false := by
      simpa using hb
    simp only [calculate_points_4_players, hfC, hfS, hfM, hfR, hinit,
      List.head?, Bind.bind, Option.bind, hb', Bool.false_eq_true, if_false]
    rw [dinsert_map_of_mem ns _ M 0 hns hmM,
      dinsert_map_of_mem ns _ C 500 hns hmC,
      dinsert_map_of_mem ns _ R 1000 hns hmR,
      dinsert_map_of_mem ns _ S 250 hns hmS]
    simp [award4, hb']

theorem calc5_repr (R Q M S C : String) (ns : List String)
    (ra : List (String × String)) (gc gs gr : String)
    (hperm : ns.Perm [R, Q, M, S, C])
    (hRQ : R ≠ Q) (hRM : R ≠ M) (hRS : R ≠ S) (hRC : R ≠ C)
    (hQM : Q ≠ M) (hQS : Q ≠ S) (hQC : Q ≠ C)
    (hMS : M ≠ S) (hMC : M ≠ C) (hSC : S ≠ C)
    (hra : ∀ p ∈ ns, dget ra p = some (roleOf5 R Q M S p)) :
    calculate_points_5_players ns ra (gc, gs) gr =
      some (ns.map (fun p => (p, award5 R Q M S C gc gs gr p))) := by
  have hQR : ¬Q = R := fun h => hRQ h.symm
  have hMR : ¬M = R := fun h => hRM h.symm
  have hMQ : ¬M = Q := fun h => hQM h.symm
  have hSR : ¬S = R := fun h => hRS h.symm
  have hSQ : ¬S = Q := fun h => hQS h.symm
  have hSM : ¬S = M := fun h => hMS h.symm
  have hCR : ¬C = R := fun h => hRC h.symm
  have hCQ : ¬C = Q := fun h => hQC h.symm
  have hCM : ¬C = M := fun h => hMC h.symm
  have hCS : ¬C = S := fun h => hSC h.symm
  have hmR : R ∈ ns := hperm.mem_iff.mpr (by simp)
  have hmQ : Q ∈ ns := hperm.mem_iff.mpr (by simp)
  have hmM : M ∈ ns := hperm.mem_iff.mpr (by simp)
  have hmS : S ∈ ns := hperm.mem_iff.mpr (by simp)
  have hmC : C ∈ ns := hperm.mem_iff.mpr (by simp)
  have hgR : dget ra R = some "Raja" := by simpa [roleOf5] using hra R hmR
  have hgQ : dget ra Q = some "Rani" := by simpa [roleOf5, hQR] using hra Q hmQ
  have hgM : dget ra M = some "Mantri" := by
    simpa [roleOf5, hMR, hMQ] using hra M hmM
  have hgS : dget ra S = some "Sipahi" := by
    simpa [roleOf5, hSR, hSQ, hSM] using hra S hmS
  have hgC : dget ra C = some "Chor" := by
    simpa [roleOf5, hCR, hCQ, hCM, hCS] using hra C hmC
  have hcanon : ([R, Q, M, S, C] : List String).Nodup := by
    simp [hRQ, hRM, hRS, hRC, hQM, hQS, hQC, hMS, hMC, hSC]
  have hns : ns.Nodup := hperm.symm.nodup hcanon
  have hfC : ns.filter (fun p => dget ra p == some "Chor") = [C] :=
    filter_perm_singleton ns _ _ hperm C
      (by simp [List.filter, hgR, hgQ, hgM, hgS, hgC])
  have hfS : ns.filter (fun p => dget ra p == some "Sipahi") = [S] :=
    filter_perm_singleton ns _ _ hperm S
      (by simp [List.filter, hgR, hgQ, hgM, hgS, hgC])
  have hfQ : ns.filter (fun p => dget ra p == some "Rani") = [Q] :=
    filter_perm_singleton ns _ _ hperm Q
      (by simp [List.filter, hgR, hgQ, hgM, hgS, hgC])
  have hfM : ns.filter (fun p => dget ra p == some "Mantri") = [M] :=
    filter_perm_singleton ns _ _ hperm M
      (by simp [List.filter, hgR, hgQ, hgM, hgS, hgC])
  have hfR : ns.filter (fun p => dget ra p == some "Raja") = [R] :=
    filter_perm_singleton ns _ _ hperm R
      (by simp [List.filter, hgR, hgQ, hgM, hgS, hgC])
  have hinit := init_points_eq_map ns hns
  by_cases hq : (gr == Q) = true
  · by_cases hb : (gc == C && gs == S) = true
    · simp only [calculate_points_5_players, hfC, hfS, hfQ, hfM, hfR, hinit,
        List.head?, Bind.bind, Option.bind, hb, hq, if_true]
      rw [dinsert_map_of_mem ns _ M 500 hns hmM,
        dinsert_map_of_mem ns _ C 0 hns hmC,
        dinsert_map_of_mem ns _ S 250 hns hmS,
        dinsert_map_of_mem ns _ R 1000 hns hmR,
        dinsert_map_of_mem ns _ Q 750 hns hmQ]
      simp [award5, hb, hq]
    · have hb' : (gc == C && gs == S) = false := by simpa using hb
      simp only [calculate_points_5_players, hfC, hfS, hfQ, hfM, hfR, hinit,
        List.head?, Bind.bind, Option.bind, hb', Bool.false_eq_true, if_false,
        hq, if_true]
      rw [dinsert_map_of_mem ns _ M 0 hns hmM,
        dinsert_map_of_mem ns _ C 500 hns hmC,
        dinsert_map_of_mem ns _ S 250 hns hmS,
        dinsert_map_of_mem ns _ R 1000 hns hmR,
        dinsert_map_of_mem ns _ Q 750 hns hmQ]
      simp [award5, hb', hq]
  · have hq' : (gr == Q) = false := by simpa using hq
    by_cases hb : (gc == C && gs == S) = true
    · simp only [calculate_points_5_players, hfC, hfS, hfQ, hfM, hfR, hinit,
        List.head?, Bind.bind, Option.bind, hb, if_true, hq',
        Bool.false_eq_true, if_false]
      rw [dinsert_map_of_mem ns _ M 500 hns hmM,
        dinsert_map_of_mem ns _ C 0 hns hmC,
        dinsert_map_of_mem ns _ S 250 hns hmS,
        dinsert_map_of_mem ns _ R 500 hns hmR]
      rw [dget_map_of_mem ns _ C hmC]
      rw [dinsert_map_of_mem ns _ C _ hns hmC,
        dinsert_map_of_mem ns _ Q 750 hns hmQ]
      show some _ = some _
      refine congrArg some (List.map_congr_left ?_)
      intro p _
      obtain ⟨hgc, hgs⟩ : gc = C ∧ gs = S := by simpa using hb
      by_cases h1 : p = Q
      · simp [award5, h1]
      by_cases h2 : p = C
      · simp [award5, h2, hCQ, hCR, hCS, hb, hq', hgc, hgs]
      by_cases h3 : p = R
      · simp [award5, h3, hRQ, fun h : R = C => hRC h, hq']
      by_cases h4 : p = S
      · simp [award5, h4, hSQ, hSR, hSC, fun h : S = C => hSC h]
      by_cases h5 : p = M
      · simp [award5, h5, hMQ, hMR, hMS, fun h : M = C => hMC h,
          fun h : M = S => hMS h, hgc, hgs]
      simp [award5, h1, h2, h3, h4, h5]
    · have hb' : (gc == C && gs == S) = false := by simpa using hb
      simp only [calculate_points_5_players, hfC, hfS, hfQ, hfM, hfR, hinit,
        List.head?, Bind.bind, Option.bind, hb', hq', Bool.false_eq_true,
        if_false]
      rw [dinsert_map_of_mem ns _ M 0 hns hmM,
        dinsert_map_of_mem ns _ C 500 hns hmC,
        dinsert_map_of_mem ns _ S 250 hns hmS,
        dinsert_map_of_mem ns _ R 500 hns hmR]
      rw [dget_map_of_mem ns _ C hmC]
      rw [dinsert_map_of_mem ns _ C _ hns hmC,
        dinsert_map_of_mem ns _ Q 750 hns hmQ]
      show some _ = some _
      refine congrArg some (List.map_congr_left ?_)
      intro p _
      have hnb : ¬(gc = C ∧ gs = S) := by
        intro hand
        rw [hand.1, hand.2] at hb'
        simp at hb'
      by_cases h1 : p = Q
      · simp [award5, h1]
      by_cases h2 : p = C
      · simp [award5, h2, hCQ, hCR, hCS, hb', hq', hnb]
      by_cases h3 : p = R
      · simp [award5, h3, hRQ, fun h : R = C => hRC h, hq']
      by_cases h4 : p = S
      · simp [award5, h4, hSQ, hSR, hSC, fun h : S = C => hSC h]
      by_cases h5 : p = M
      · simp [award5, h5, hMQ, hMR, hMS, fun h : M = C => hMC h,
          fun h : M = S => hMS h, hnb]
      simp [award5, h1, h2, h3, h4, h5]

/-! ## Claims C1-C3: the score calculators -/

/-- C1: For every role assignment that is a bijection from 4 distinct
player names onto the role set (holders `R`/`M`/`S`/`C`) and every guess
pair, `calculate_points_4_players` awards Mantri 500 and Chor 0 when the
Chor and Sipahi guesses are both right, otherwise Mantri 0 and Chor 500;
Raja always receives 1000 and Sipahi always 250, and every other player
receives 0 for the round (no identity outside the room is awarded
anything). -/
theorem C1_points_4_players (R M S C : String) (ns : List String)
    (ra : List (String × String)) (gc gs : String)
    (hperm : ns.Perm [R, M, S, C])
    (hRM : R ≠ M) (hRS : R ≠ S) (hRC : R ≠ C)
    (hMS : M ≠ S) (hMC : M ≠ C) (hSC : S ≠ C)
    (hra : ∀ p ∈ ns, dget ra p = some (roleOf4 R M S p)) :
    ∃ res, calculate_points_4_players ns ra (gc, gs) = some res ∧
      dget res R = some 1000 ∧
      dget res S = some 250 ∧
      ((gc = C ∧ gs = S) → dget res M = some 500 ∧ dget res C = some 0) ∧
      (¬(gc = C ∧ gs = S) → dget res M = some 0 ∧ dget res C = some 500) ∧
      (∀ p ∈ ns, p ≠ R → p ≠ M → p ≠ S → p ≠ C → dget res p = some 0) ∧
      (∀ p, p ∉ ns → dget res p = none) := by
  have hmR : R ∈ ns := hperm.mem_iff.mpr (by simp)
  have hmM : M ∈ ns := hperm.mem_iff.mpr (by simp)
  have hmS : S ∈ ns := hperm.mem_iff.mpr (by simp)
  have hmC : C ∈ ns := hperm.mem_iff.mpr (by simp)
  have hMR : ¬M = R := fun h => hRM h.symm
  have hCR : ¬C = R := fun h => hRC h.symm
  have hCM : ¬C = M := fun h => hMC h.symm
  have hCS : ¬C = S := fun h => hSC h.symm
  refine ⟨_, calc4_repr R M S C ns ra gc gs hperm hRM hRS hRC hMS hMC hSC hra,
    ?_, ?_, ?_, ?_, ?_, ?_⟩
  · rw [dget_map_of_mem ns _ R hmR]
    simp [award4, hRS]
  · rw [dget_map_of_mem ns _ S hmS]
    simp [award4]
  · intro h
    constructor
    · rw [dget_map_of_mem ns _ M hmM]
      simp [award4, hMS, hMR, hMC, h.1, h.2]
    · rw [dget_map_of_mem ns _ C hmC]
      simp [award4, hCS, hCR, h.1, h.2]
  · intro h
    have hb' : (gc == C && gs == S) = false := by
      by_cases h1 : gc = C
      · by_cases h2 : gs = S
        · exact absurd ⟨h1, h2⟩ h
        · simp [h2]
      · simp [h1]
    constructor
    · rw [dget_map_of_mem ns _ M hmM]
      simp [award4, hMS, hMR, hMC, hb']
    · rw [dget_map_of_mem ns _ C hmC]
      simp [award4, hCS, hCR, hb']
  · intro p hp h1 h2 h3 h4
    rw [dget_map_of_mem ns _ p hp]
    simp [award4, h1, h2, h3, h4]
  · intro p hp
    exact dget_map_of_not_mem ns _ p hp

/-- C1 witness: the spec's own 4-player scenario (`A`:Raja, `B`:Mantri,
`C`:Sipahi, `D`:Chor, guesses chor=`D`, sipahi=`C`). -/
theorem C1_points_4_players_witness :
    ∃ res, calculate_points_4_players ["A", "B", "C", "D"]
        [("A", "Raja"), ("B", "Mantri"), ("C", "Sipahi"), ("D", "Chor")]
        ("D", "C") = some res ∧
      dget res "A" = some 1000 ∧
      dget res "C" = some 250 ∧
      (("D" = "D" ∧ "C" = "C") → dget res "B" = some 500 ∧ dget res "D" = some 0) ∧
      (¬("D" = "D" ∧ "C" = "C") → dget res "B" = some 0 ∧ dget res "D" = some 500) ∧
      (∀ p ∈ ["A", "B", "C", "D"], p ≠ "A" → p ≠ "B" → p ≠ "C" → p ≠ "D" →
        dget res p = some 0) ∧
      (∀ p, p ∉ ["A", "B", "C", "D"] → dget res p = none) :=
  C1_points_4_players "A" "B" "C" "D" ["A", "B", "C", "D"]
    [("A", "Raja"), ("B", "Mantri"), ("C", "Sipahi"), ("D", "Chor")] "D" "C"
    (List.Perm.refl _) (by decide) (by decide) (by decide) (by decide)
    (by decide) (by decide) (by decide)

/-- C2: For every bijective 5-player role assignment (holders
`R`/`Q`/`M`/`S`/`C` with `Q` the Rani), `calculate_points_5_players`
awards Raja 1000 when the Rani guess is right, and otherwise awards Raja
500 and adds 500 to Chor's points on top of the Mantri-branch outcome
(0 on a correct Mantri guess, 500 on an incorrect one, so Chor can reach
1000 when both guesses are wrong); Rani always receives 750 and Sipahi
always 250. -/
theorem C2_points_5_players (R Q M S C : String) (ns : List String)
    (ra : List (String × String)) (gc gs gr : String)
    (hperm : ns.Perm [R, Q, M, S, C])
    (hRQ : R ≠ Q) (hRM : R ≠ M) (hRS : R ≠ S) (hRC : R ≠ C)
    (hQM : Q ≠ M) (hQS : Q ≠ S) (hQC : Q ≠ C)
    (hMS : M ≠ S) (hMC : M ≠ C) (hSC : S ≠ C)
    (hra : ∀ p ∈ ns, dget ra p = some (roleOf5 R Q M S p)) :
    ∃ res, calculate_points_5_players ns ra (gc, gs) gr = some res ∧
      dget res Q = some 750 ∧
      dget res S = some 250 ∧
      (gr = Q → dget res R = some 1000 ∧
        dget res C = some (if gc = C ∧ gs = S then 0 else 500)) ∧
      (gr ≠ Q → dget res R = some 500 ∧
        dget res C = some ((if gc = C ∧ gs = S then 0 else 500) + 500)) := by
  have hmR : R ∈ ns := hperm.mem_iff.mpr (by simp)
  have hmQ : Q ∈ ns := hperm.mem_iff.mpr (by simp)
  have hmS : S ∈ ns := hperm.mem_iff.mpr (by simp)
  have hmC : C ∈ ns := hperm.mem_iff.mpr (by simp)
  have hSQ : ¬S = Q := fun h => hQS h.symm
  have hSR : ¬S = R := fun h => hRS h.symm
  have hCQ : ¬C = Q := fun h => hQC h.symm
  have hCR : ¬C = R := fun h => hRC h.symm
  have hCS : ¬C = S := fun h => hSC h.symm
  refine ⟨_, calc5_repr R Q M S C ns ra gc gs gr hperm hRQ hRM hRS hRC hQM
    hQS hQC hMS hMC hSC hra, ?_, ?_, ?_, ?_⟩
  · rw [dget_map_of_mem ns _ Q hmQ]
    simp [award5]
  · rw [dget_map_of_mem ns _ S hmS]
    simp [award5, hSQ, hSR]
  · intro h
    constructor
    · rw [dget_map_of_mem ns _ R hmR]
      simp [award5, hRQ, h]
    · rw [dget_map_of_mem ns _ C hmC]
      by_cases h2 : gc = C ∧ gs = S
      · simp [award5, hCQ, hCR, hCS, h, h2, h2.1, h2.2]
      · have hb' : (gc == C && gs == S) = false := by
          by_cases ha : gc = C
          · by_cases hb : gs = S
            · exact absurd ⟨ha, hb⟩ h2
            · simp [hb]
          · simp [ha]
        simp [award5, hCQ, hCR, hCS, h, h2, hb']
  · intro h
    have hq' : (gr == Q) = false := by simp [h]
    constructor
    · rw [dget_map_of_mem ns _ R hmR]
      simp [award5, hRQ, hq']
    · rw [dget_map_of_mem ns _ C hmC]
      by_cases h2 : gc = C ∧ gs = S
      · simp [award5, hCQ, hCR, hCS, hq', h2, h2.1, h2.2]
      · have hb' : (gc == C && gs == S) = false := by
          by_cases ha : gc = C
          · by_cases hb : gs = S
            · exact absurd ⟨ha, hb⟩ h2
            · simp [hb]
          · simp [ha]
        simp [award5, hCQ, hCR, hCS, hq', h2, hb']

/-- C2 witness: the spec's 5-player scenario (`A`:Raja, `B`:Rani,
`C`:Mantri, `D`:Sipahi, `E`:Chor; guesses chor=`E`, sipahi=`D`,
rani=`B`). -/
theorem C2_points_5_players_witness :
    ∃ res, calculate_points_5_players ["A", "B", "C", "D", "E"]
        [("A", "Raja"), ("B", "Rani"), ("C", "Mantri"), ("D", "Sipahi"),
          ("E", "Chor")] ("E", "D") "B" = some res ∧
      dget res "B" = some 750 ∧
      dget res "D" = some 250 ∧
      ("B" = "B" → dget res "A" = some 1000 ∧
        dget res "E" = some (if "E" = "E" ∧ "D" = "D" then 0 else 500)) ∧
      ("B" ≠ "B" → dget res "A" = some 500 ∧
        dget res "E" = some ((if "E" = "E" ∧ "D" = "D" then 0 else 500) + 500)) :=
  C2_points_5_players "A" "B" "C" "D" "E" ["A", "B", "C", "D", "E"]
    [("A", "Raja"), ("B", "Rani"), ("C", "Mantri"), ("D", "Sipahi"),
      ("E", "Chor")] "E" "D" "B"
    (List.Perm.refl _) (by decide) (by decide) (by decide) (by decide)
    (by decide) (by decide) (by decide) (by decide) (by decide) (by decide)
    (by decide)

/-- C3: For both score calculators, on every bijective role assignment the
sum of awarded points over all players is the same in the correct-Mantri
branch as in the incorrect one at each fixed Raja/Rani outcome: it is
always 1750 in 4-player mode and always 2500 in 5-player mode. -/
theorem C3_score_sum_invariant :
    (∀ (R M S C : String) (ns : List String) (ra : List (String × String))
        (gc gs : String), ns.Perm [R, M, S, C] →
      R ≠ M → R ≠ S → R ≠ C → M ≠ S → M ≠ C → S ≠ C →
      (∀ p ∈ ns, dget ra p = some (roleOf4 R M S p)) →
      ∃ res, calculate_points_4_players ns ra (gc, gs) = some res ∧
        sumPoints res = 1750) ∧
    (∀ (R Q M S C : String) (ns : List String) (ra : List (String × String))
        (gc gs gr : String), ns.Perm [R, Q, M, S, C] →
      R ≠ Q → R ≠ M → R ≠ S → R ≠ C → Q ≠ M → Q ≠ S → Q ≠ C →
      M ≠ S → M ≠ C → S ≠ C →
      (∀ p ∈ ns, dget ra p = some (roleOf5 R Q M S p)) →
      ∃ res, calculate_points_5_players ns ra (gc, gs) gr = some res ∧
        sumPoints res = 2500) := by
  constructor
  · intro R M S C ns ra gc gs hperm hRM hRS hRC hMS hMC hSC hra
    have hMR : ¬M = R := fun h => hRM h.symm
    have hCR : ¬C = R := fun h => hRC h.symm
    have hCS : ¬C = S := fun h => hSC h.symm
    refine ⟨_, calc4_repr R M S C ns ra gc gs hperm hRM hRS hRC hMS hMC hSC hra, ?_⟩
    rw [sumPoints_map, (hperm.map (award4 R M S C gc gs)).sum_eq]
    by_cases hb : (gc == C && gs == S) = true
    · simp [award4, hRS, hMS, hMR, hMC, hCS, hCR, hb]
    · have hb' : (gc == C && gs == S) = false := by simpa using hb
      simp [award4, hRS, hMS, hMR, hMC, hCS, hCR, hb']
  · intro R Q M S C ns ra gc gs gr hperm hRQ hRM hRS hRC hQM hQS hQC hMS hMC hSC hra
    have hMQ : ¬M = Q := fun h => hQM h.symm
    have hMR : ¬M = R := fun h => hRM h.symm
    have hSQ : ¬S = Q := fun h => hQS h.symm
    have hSR : ¬S = R := fun h => hRS h.symm
    have hCQ : ¬C = Q := fun h => hQC h.symm
    have hCR : ¬C = R := fun h => hRC h.symm
    have hCS : ¬C = S := fun h => hSC h.symm
    refine ⟨_, calc5_repr R Q M S C ns ra gc gs gr hperm hRQ hRM hRS hRC hQM
      hQS hQC hMS hMC hSC hra, ?_⟩
    rw [sumPoints_map, (hperm.map (award5 R Q M S C gc gs gr)).sum_eq]
    by_cases hq : (gr == Q) = true
    · by_cases hb : (gc == C && gs == S) = true
      · simp [award5, hRQ, hMQ, hMR, hMS, hMC, hSQ, hSR, hCQ, hCR, hCS, hq, hb]
      · have hb' : (gc == C && gs == S) = false := by simpa using hb
        simp [award5, hRQ, hMQ, hMR, hMS, hMC, hSQ, hSR, hCQ, hCR, hCS, hq, hb']
    · have hq' : (gr == Q) = false := by simpa using hq
      by_cases hb : (gc == C && gs == S) = true
      · simp [award5, hRQ, hMQ, hMR, hMS, hMC, hSQ, hSR, hCQ, hCR, hCS, hq', hb]
      · have hb' : (gc == C && gs == S) = false := by simpa using hb
        simp [award5, hRQ, hMQ, hMR, hMS, hMC, hSQ, hSR, hCQ, hCR, hCS, hq', hb']

/-- C3 witness: the two documented scenarios, with totals 1750 and 2500. -/
theorem C3_score_sum_invariant_witness :
    (∃ res, calculate_points_4_players ["A", "B", "C", "D"]
        [("A", "Raja"), ("B", "Mantri"), ("C", "Sipahi"), ("D", "Chor")]
        ("D", "C") = some res ∧ sumPoints res = 1750) ∧
    (∃ res, calculate_points_5_players ["A", "B", "C", "D", "E"]
        [("A", "Raja"), ("B", "Rani"), ("C", "Mantri"), ("D", "Sipahi"),
          ("E", "Chor")] ("E", "D") "B" = some res ∧ sumPoints res = 2500) :=
  ⟨C3_score_sum_invariant.1 "A" "B" "C" "D" ["A", "B", "C", "D"]
      [("A", "Raja"), ("B", "Mantri"), ("C", "Sipahi"), ("D", "Chor")] "D" "C"
      (List.Perm.refl _) (by decide) (by decide) (by decide) (by decide)
      (by decide) (by decide) (by decide),
    C3_score_sum_invariant.2 "A" "B" "C" "D" "E" ["A", "B", "C", "D", "E"]
      [("A", "Raja"), ("B", "Rani"), ("C", "Mantri"), ("D", "Sipahi"),
        ("E", "Chor")] "E" "D" "B"
      (List.Perm.refl _) (by decide) (by decide) (by decide) (by decide)
      (by decide) (by decide) (by decide) (by decide) (by decide) (by decide)
      (by decide)⟩

/-! ## Claims C4-C5: role assignment -/

/-- C4: For every list of exactly 4 (respectively 5) distinct player
identities and every shuffle outcome, `assign_roles_4_players`
(respectively `assign_roles_5_players`) returns a mapping whose key list
is exactly the (shuffled) identities — hence a permutation of the input
identities — and whose value list is exactly the role set for that count,
i.e. a bijection onto it. -/
theorem C4_assign_roles_bijection :
    (∀ (names shuffled : List String), names.Nodup → names.length = 4 →
      shuffled.Perm names →
      (assign_roles_4_players shuffled).map Prod.fst = shuffled ∧
      ((assign_roles_4_players shuffled).map Prod.fst).Perm names ∧
      (assign_roles_4_players shuffled).map Prod.snd =
        ["Raja", "Mantri", "Sipahi", "Chor"]) ∧
    (∀ (names shuffled : List String), names.Nodup → names.length = 5 →
      shuffled.Perm names →
      (assign_roles_5_players shuffled).map Prod.fst = shuffled ∧
      ((assign_roles_5_players shuffled).map Prod.fst).Perm names ∧
      (assign_roles_5_players shuffled).map Prod.snd =
        ["Raja", "Rani", "Mantri", "Sipahi", "Chor"]) := by
  constructor
  · intro names shuffled hnd hlen hperm
    have hsnd : shuffled.Nodup := hperm.symm.nodup hnd
    have hslen : shuffled.length = 4 := hperm.length_eq.trans hlen
    have hfst : (shuffled.zip ["Raja", "Mantri", "Sipahi", "Chor"]).map Prod.fst
        = shuffled :=
      List.map_fst_zip _ _ (by rw [hslen]; simp)
    have hd : assign_roles_4_players shuffled =
        shuffled.zip ["Raja", "Mantri", "Sipahi", "Chor"] := by
      rw [assign_roles_4_players]
      exact dictOfPairs_eq_self _ (by rw [hfst]; exact hsnd)
    refine ⟨?_, ?_, ?_⟩
    · rw [hd, hfst]
    · rw [hd, hfst]; exact hperm
    · rw [hd]
      exact List.map_snd_zip _ _ (by rw [hslen]; simp)
  · intro names shuffled hnd hlen hperm
    have hsnd : shuffled.Nodup := hperm.symm.nodup hnd
    have hslen : shuffled.length = 5 := hperm.length_eq.trans hlen
    have hfst : (shuffled.zip ["Raja", "Rani", "Mantri", "Sipahi", "Chor"]).map
        Prod.fst = shuffled :=
      List.map_fst_zip _ _ (by rw [hslen]; simp)
    have hd : assign_roles_5_players shuffled =
        shuffled.zip ["Raja", "Rani", "Mantri", "Sipahi", "Chor"] := by
      rw [assign_roles_5_players]
      exact dictOfPairs_eq_self _ (by rw [hfst]; exact hsnd)
    refine ⟨?_, ?_, ?_⟩
    · rw [hd, hfst]
    · rw [hd, hfst]; exact hperm
    · rw [hd]
      exact List.map_snd_zip _ _ (by rw [hslen]; simp)

/-- C4 witness: concrete 4- and 5-identity lists. -/
theorem C4_assign_roles_bijection_witness :
    ((assign_roles_4_players ["A", "B", "C", "D"]).map Prod.fst =
        ["A", "B", "C", "D"] ∧
      ((assign_roles_4_players ["A", "B", "C", "D"]).map Prod.fst).Perm
        ["A", "B", "C", "D"] ∧
      (assign_roles_4_players ["A", "B", "C", "D"]).map Prod.snd =
        ["Raja", "Mantri", "Sipahi", "Chor"]) ∧
    ((assign_roles_5_players ["A", "B", "C", "D", "E"]).map Prod.fst =
        ["A", "B", "C", "D", "E"] ∧
      ((assign_roles_5_players ["A", "B", "C", "D", "E"]).map Prod.fst).Perm
        ["A", "B", "C", "D", "E"] ∧
      (assign_roles_5_players ["A", "B", "C", "D", "E"]).map Prod.snd =
        ["Raja", "Rani", "Mantri", "Sipahi", "Chor"]) :=
  ⟨C4_assign_roles_bijection.1 ["A", "B", "C", "D"] ["A", "B", "C", "D"]
      (by decide) (by decide) (List.Perm.refl _),
    C4_assign_roles_bijection.2 ["A", "B", "C", "D", "E"]
      ["A", "B", "C", "D", "E"] (by decide) (by decide) (List.Perm.refl _)⟩

theorem keys_dinsert_sub {α : Type} (d : List (String × α)) (k : String)
    (v : α) : ∀ x ∈ (dinsert d k v).map Prod.fst,
      x ∈ d.map Prod.fst ∨ x = k := by
  induction d with
  | nil =>
      intro x hx
      simp [dinsert] at hx
      simp [hx]
  | cons hd tl ih =>
      obtain ⟨k0, v0⟩ := hd
      intro x hx
      by_cases hk : k = k0
      · simp [dinsert, hk] at hx
        rcases hx with h | h
        · exact Or.inl (by simp [h])
        · exact Or.inl (by simp [h])
      · simp [dinsert, hk] at hx
        rcases hx with h | h
        · exact Or.inl (by simp [h])
        · rcases ih x (by simpa using h) with h' | h'
          · exact Or.inl (by simp; right; exact (by simpa using h'))
          · exact Or.inr h'

theorem nodup_keys_dinsert {α : Type} (d : List (String × α)) (k : String)
    (v : α) (h : (d.map Prod.fst).Nodup) :
    ((dinsert d k v).map Prod.fst).Nodup := by
  induction d with
  | nil => simp [dinsert]
  | cons hd tl ih =>
      obtain ⟨k0, v0⟩ := hd
      rw [List.map_cons, List.nodup_cons] at h
      simp only [dinsert]
      by_cases hk : k = k0
      · rw [if_pos hk, List.map_cons, List.nodup_cons]
        exact h
      · rw [if_neg hk, List.map_cons, List.nodup_cons]
        refine ⟨?_, ih h.2⟩
        intro hx
        rcases keys_dinsert_sub tl k v k0 hx with h' | h'
        · exact h.1 h'
        · exact hk h'.symm

theorem length_dinsert_le {α : Type} (d : List (String × α)) (k : String)
    (v : α) : (dinsert d k v).length ≤ d.length + 1 := by
  induction d with
  | nil => simp [dinsert]
  | cons hd tl ih =>
      obtain ⟨k0, v0⟩ := hd
      by_cases hk : k = k0
      · simp [dinsert, hk]
      · simp [dinsert, hk]
        omega

theorem foldl_dinsert_keys_inv {α : Type} (ps : List (String × α)) :
    ∀ acc : List (String × α), (acc.map Prod.fst).Nodup →
      ((ps.foldl (fun d kv => dinsert d kv.1 kv.2) acc).map Prod.fst).Nodup ∧
      (∀ x ∈ (ps.foldl (fun d kv => dinsert d kv.1 kv.2) acc).map Prod.fst,
        x ∈ acc.map Prod.fst ∨ x ∈ ps.map Prod.fst) ∧
      (ps.foldl (fun d kv => dinsert d kv.1 kv.2) acc).length ≤
        acc.length + ps.length := by
  induction ps with
  | nil =>
      intro acc h
      exact ⟨by simpa using h, fun x hx => Or.inl (by simpa using hx),
        by simp⟩
  | cons hd tl ih =>
      intro acc hacc
      obtain ⟨k0, v0⟩ := hd
      have hacc' := nodup_keys_dinsert acc k0 v0 hacc
      obtain ⟨h1, h2, h3⟩ := ih (dinsert acc k0 v0) hacc'
      refine ⟨by simpa using h1, ?_, ?_⟩
      · intro x hx
        rcases h2 x (by simpa using hx) with h | h
        · rcases keys_dinsert_sub acc k0 v0 x h with h' | h'
          · exact Or.inl h'
          · exact Or.inr (by simp [h'])
        · exact Or.inr (by simp [h])
      · have h4 := length_dinsert_le acc k0 v0
        simp only [List.foldl_cons, List.length_cons]
        omega

/-- C5 counterexample: the role-assignment helpers perform no validation.
With a duplicated identity (`A` twice) `assign_roles_4_players` silently
returns a 3-key mapping in which no player holds Raja, and with only 3
identities it silently returns a truncated mapping; neither input produces
any error. -/
theorem C5_counterexample :
    assign_roles_4_players ["A", "A", "B", "C"] =
      [("A", "Mantri"), ("B", "Sipahi"), ("C", "Chor")] ∧
    ¬((assign_roles_4_players ["A", "A", "B", "C"]).map Prod.snd).Perm
      ["Raja", "Mantri", "Sipahi", "Chor"] ∧
    assign_roles_4_players ["A", "B", "C"] =
      [("A", "Raja"), ("B", "Mantri"), ("C", "Sipahi")] := by
  decide

/-- C5 (amended): the role-assignment operation performs no validation and
never fails: for every identity list and player count it silently returns
the `dict(zip(shuffled, roles))` mapping, whose keys are distinct, drawn
from the supplied identities, and number at most the role count — so on a
duplicate or count-mismatched input it silently returns a (possibly
truncated, non-bijective) mapping rather than raising
`InvalidConfiguration`; distinctness and count are enforced upstream by
the UI before it is invoked. -/
theorem C5_roles_no_validation :
    ∀ (shuffled : List String) (num_players : Nat),
      ((compute_roles_for_round shuffled num_players).map Prod.fst).Nodup ∧
      (∀ k ∈ (compute_roles_for_round shuffled num_players).map Prod.fst,
        k ∈ shuffled) ∧
      (compute_roles_for_round shuffled num_players).length ≤
        (if num_players = 5 then 5 else 4) := by
  intro shuffled n
  by_cases h5 : n = 5
  · obtain ⟨h1, h2, h3⟩ :=
      foldl_dinsert_keys_inv
        (shuffled.zip ["Raja", "Rani", "Mantri", "Sipahi", "Chor"]) []
        (by simp)
    refine ⟨?_, ?_, ?_⟩
    · simpa [compute_roles_for_round, h5, assign_roles_5_players,
        dictOfPairs] using h1
    · intro k hk
      have hk' : k ∈ (shuffled.zip
          ["Raja", "Rani", "Mantri", "Sipahi", "Chor"]).map Prod.fst := by
        rcases h2 k (by
          simpa [compute_roles_for_round, h5, assign_roles_5_players,
            dictOfPairs] using hk) with h | h
        · simp at h
        · exact h
      rcases List.mem_map.mp hk' with ⟨⟨a, b⟩, hmem, rfl⟩
      exact (List.of_mem_zip hmem).1
    · have hz := List.length_zip shuffled
        ["Raja", "Rani", "Mantri", "Sipahi", "Chor"]
      have hle : (shuffled.zip
          ["Raja", "Rani", "Mantri", "Sipahi", "Chor"]).length ≤ 5 := by
        rw [hz]; simp
      have h3' : (compute_roles_for_round shuffled n).length ≤
          (shuffled.zip ["Raja", "Rani", "Mantri", "Sipahi", "Chor"]).length := by
        simpa [compute_roles_for_round, h5, assign_roles_5_players,
          dictOfPairs] using h3
      rw [if_pos h5]
      omega
  · obtain ⟨h1, h2, h3⟩ :=
      foldl_dinsert_keys_inv
        (shuffled.zip ["Raja", "Mantri", "Sipahi", "Chor"]) [] (by simp)
    refine ⟨?_, ?_, ?_⟩
    · simpa [compute_roles_for_round, h5, assign_roles_4_players,
        dictOfPairs] using h1
    · intro k hk
      have hk' : k ∈ (shuffled.zip
          ["Raja", "Mantri", "Sipahi", "Chor"]).map Prod.fst := by
        rcases h2 k (by
          simpa [compute_roles_for_round, h5, assign_roles_4_players,
            dictOfPairs] using hk) with h | h
        · simp at h
        · exact h
      rcases List.mem_map.mp hk' with ⟨⟨a, b⟩, hmem, rfl⟩
      exact (List.of_mem_zip hmem).1
    · have hz := List.length_zip shuffled ["Raja", "Mantri", "Sipahi", "Chor"]
      have hle : (shuffled.zip
          ["Raja", "Mantri", "Sipahi", "Chor"]).length ≤ 4 := by
        rw [hz]; simp
      have h3' : (compute_roles_for_round shuffled n).length ≤
          (shuffled.zip ["Raja", "Mantri", "Sipahi", "Chor"]).length := by
        simpa [compute_roles_for_round, h5, assign_roles_4_players,
          dictOfPairs] using h3
      rw [if_neg h5]
      omega

/-! ## Claim C8: 4-player Sipahi inference -/

/-- C8 counterexample: with a corrupted role assignment giving two hidden
candidates different from the guessed Chor, `_infer_sipahi_4p` does not
fail: it silently returns the first candidate. -/
theorem C8_counterexample :
    (eligible_hidden_players ["A", "B", "C", "D"]
        [("A", "Raja"), ("B", "Chor"), ("C", "Chor"), ("D", "Chor")]).filter
      (fun p => p ≠ "B") = ["C", "D"] ∧
    infer_sipahi_4p ["A", "B", "C", "D"]
      [("A", "Raja"), ("B", "Chor"), ("C", "Chor"), ("D", "Chor")] "B" =
      some "C" := by
  decide

/-- C8 (amended): in 4-player mode the Sipahi guess is not submitted but
computed from the role assignment: the computation takes the *first*
hidden player (holder of neither Raja nor Mantri) different from the
guessed Chor.  With zero candidates it fails (an unhandled `IndexError`
in the helper, surfaced as an error message and no state change in the
flow), but with more than one candidate it silently returns the first
rather than failing; on a valid bijective assignment with the Chor guess
equal to the actual Chor it returns the actual Sipahi. -/
theorem C8_sipahi_inference :
    (∀ (ns : List String) (ra : List (String × String)) (g : String),
      (eligible_hidden_players ns ra).filter (fun p => p ≠ g) = [] →
      infer_sipahi_4p ns ra g = none) ∧
    (∀ (ns : List String) (ra : List (String × String)) (g x : String)
        (rest : List String),
      (eligible_hidden_players ns ra).filter (fun p => p ≠ g) = x :: rest →
      infer_sipahi_4p ns ra g = some x) ∧
    (∀ (R M S C : String) (ns : List String) (ra : List (String × String)),
      ns.Perm [R, M, S, C] →
      R ≠ M → R ≠ S → R ≠ C → M ≠ S → M ≠ C → S ≠ C →
      (∀ p ∈ ns, dget ra p = some (roleOf4 R M S p)) →
      infer_sipahi_4p ns ra C = some S) := by
  refine ⟨?_, ?_, ?_⟩
  · intro ns ra g h
    unfold infer_sipahi_4p
    rw [h]
    rfl
  · intro ns ra g x rest h
    unfold infer_sipahi_4p
    rw [h]
    rfl
  · intro R M S C ns ra hperm hRM hRS hRC hMS hMC hSC hra
    have hMR : ¬M = R := fun h => hRM h.symm
    have hSR : ¬S = R := fun h => hRS h.symm
    have hSM : ¬S = M := fun h => hMS h.symm
    have hCR : ¬C = R := fun h => hRC h.symm
    have hCM : ¬C = M := fun h => hMC h.symm
    have hCS : ¬C = S := fun h => hSC h.symm
    have hmR : R ∈ ns := hperm.mem_iff.mpr (by simp)
    have hmM : M ∈ ns := hperm.mem_iff.mpr (by simp)
    have hmS : S ∈ ns := hperm.mem_iff.mpr (by simp)
    have hmC : C ∈ ns := hperm.mem_iff.mpr (by simp)
    have hgR : dget ra R = some "Raja" := by simpa [roleOf4] using hra R hmR
    have hgM : dget ra M = some "Mantri" := by
      simpa [roleOf4, hMR] using hra M hmM
    have hgS : dget ra S = some "Sipahi" := by
      simpa [roleOf4, hSR, hSM] using hra S hmS
    have hgC : dget ra C = some "Chor" := by
      simpa [roleOf4, hCR, hCM, hCS] using hra C hmC
    have he : (eligible_hidden_players ns ra).Perm [S, C] := by
      rw [eligible_hidden_players]
      have h2 := hperm.filter (fun p =>
        !(dget ra p == some "Raja" || dget ra p == some "Mantri"))
      rw [show (([R, M, S, C] : List String).filter (fun p =>
          !(dget ra p == some "Raja" || dget ra p == some "Mantri"))) = [S, C]
        from by simp [List.filter, hgR, hgM, hgS, hgC]] at h2
      exact h2
    have hq : (eligible_hidden_players ns ra).filter (fun p => p ≠ C) = [S] := by
      have h2 := he.filter (fun p => p ≠ C)
      rw [show (([S, C] : List String).filter (fun p => p ≠ C)) = [S]
        from by simp [hSC]] at h2
      exact List.perm_singleton.mp h2
    unfold infer_sipahi_4p
    rw [hq]
    rfl

/-- C8 witness: the silent first-candidate behaviour at the corrupted
input, and the good case on a valid bijective assignment. -/
theorem C8_sipahi_inference_witness :
    infer_sipahi_4p ["A", "B", "C", "D"]
      [("A", "Raja"), ("B", "Chor"), ("C", "Chor"), ("D", "Chor")] "B" =
      some "C" ∧
    infer_sipahi_4p ["A", "B", "C", "D"]
      [("A", "Raja"), ("B", "Mantri"), ("C", "Sipahi"), ("D", "Chor")] "D" =
      some "C" :=
  ⟨C8_sipahi_inference.2.1 ["A", "B", "C", "D"]
      [("A", "Raja"), ("B", "Chor"), ("C", "Chor"), ("D", "Chor")] "B" "C"
      ["D"] (by decide),
    C8_sipahi_inference.2.2 "A" "B" "C" "D" ["A", "B", "C", "D"]
      [("A", "Raja"), ("B", "Mantri"), ("C", "Sipahi"), ("D", "Chor")]
      (List.Perm.refl _) (by decide) (by decide) (by decide) (by decide)
      (by decide) (by decide) (by decide)⟩

/-! ## Claims C6-C7, C9-C10: the room state machine -/

/-- Score table of a step outcome (empty when the step crashed). -/
def result_scores (r : StepResult) : List ScoreRow :=
  match r with
  | .acted s => s.round_scores
  | .noChange s => s.round_scores
  | .crashed => []

/-- Whether a step mutated the store. -/
def did_act (r : StepResult) : Bool :=
  match r with
  | .acted _ => true
  | _ => false

/-- A concrete 4-player role assignment for the store scenarios
(`A`:Raja, `B`:Mantri, `C`:Sipahi, `D`:Chor). -/
def exampleRoles4 : List (String × String) :=
  [("A", "Raja"), ("B", "Mantri"), ("C", "Sipahi"), ("D", "Chor")]

/-- A room snapshot in the `MANTRI_GUESS` phase of round 1 of 2. -/
def exampleGuessRoom : Room where
  room_code := "RM"
  num_players := 4
  num_rounds := 2
  current_round := 1
  current_phase := some PHASE_MANTRI_GUESS
  current_roles := exampleRoles4
  mantri_chor_guess := none
  mantri_sipahi_guess := none
  raja_rani_guess := none
  admin_name := "A"
  lobby_log := []

/-- The live store while the guess is still pending. -/
def exampleWaitStore : Store where
  room := exampleGuessRoom
  round_scores := []

/-- The live store after a first submission has already resolved round 1:
the room has moved on to `ROUND_RESULT` and the four score rows exist. -/
def exampleResolvedStore : Store where
  room := { exampleGuessRoom with
    current_phase := some PHASE_ROUND_RESULT,
    mantri_chor_guess := some "D",
    mantri_sipahi_guess := some "C" }
  round_scores :=
    [⟨"RM", "A", 1, 1000⟩, ⟨"RM", "B", 1, 500⟩, ⟨"RM", "C", 1, 250⟩,
      ⟨"RM", "D", 1, 0⟩]

/-- C6 counterexample: a second Mantri submission racing on a stale
snapshot (the live room already shows `ROUND_RESULT`) does not fail with
any `PhaseMismatch`: it succeeds and appends four more score rows, leaving
two `RoundScoreEntry` rows for player `B` in round 1. -/
theorem C6_counterexample :
    did_act (mantri_guess_step exampleResolvedStore exampleGuessRoom
      ["A", "B", "C", "D"] "B" "D" "") = true ∧
    ((result_scores (mantri_guess_step exampleResolvedStore exampleGuessRoom
        ["A", "B", "C", "D"] "B" "D" "")).filter
      (fun row => row.player_name == "B" && row.round_number == 1)).length =
      2 := by
  decide

/-- C6 (amended): `update_room` applies its updates unconditionally — it
never compares the room's current phase against an expected pre-state and
has no `PhaseMismatch` failure — and a Mantri-guess submission whose
*fetched snapshot* passes the phase check succeeds against any live store
state, appending one score row per player; so a submission racing on a
stale snapshot of an already-decided phase double-appends rather than
failing (each client's phase check is fetch-then-act, not atomic). -/
theorem C6_unconditional_update :
    (∀ (r : Room) (u : RoomUpdates),
      (update_room r u).current_phase = u.current_phase.getD r.current_phase) ∧
    (∀ (s : Store) (fetched : Room) (players : List String)
        (actor chor_choice sipahi_pick sp : String) (pts : List (String × Int)),
      fetched.current_phase = some PHASE_MANTRI_GUESS →
      players.find? (fun p => dget fetched.current_roles p == some "Mantri") =
        some actor →
      fetched.num_players = 4 →
      ((eligible_hidden_players players fetched.current_roles).filter
        (fun n => n ≠ chor_choice)).head? = some sp →
      calculate_points_4_players players fetched.current_roles
        (chor_choice, sp) = some pts →
      ∃ s', mantri_guess_step s fetched players actor chor_choice sipahi_pick =
          .acted s' ∧
        s'.round_scores.length = s.round_scores.length + players.length ∧
        s'.room.current_phase = some PHASE_ROUND_RESULT) := by
  constructor
  · intro r u
    simp [update_room, apply_room_updates, strip_admin_key]
  · intro s fetched players actor chor_choice sipahi_pick sp pts hphase hfind
      h4 hsip hcalc
    simp only [mantri_guess_step, hphase, hfind, h4, hsip, ne_eq,
      not_true_eq_false, if_false, ite_true, ite_false]
    simp only [show (4 : Nat) ≠ 5 from by decide, if_false, ite_false,
      reduceIte]
    rw [hcalc]
    refine ⟨_, rfl, ?_, ?_⟩
    · simp [insert_round_scores, store_update_room]
    · simp [store_update_room, update_room, apply_room_updates,
        strip_admin_key]

/-- C6 witness: the stale second submission concretely appends 4 more
rows to the 4 already present. -/
theorem C6_unconditional_update_witness :
    (update_room exampleGuessRoom
        { current_phase := some (some PHASE_GAME_OVER) }).current_phase =
      (some (some PHASE_GAME_OVER) : Option (Option String)).getD
        exampleGuessRoom.current_phase ∧
    ∃ s', mantri_guess_step exampleResolvedStore exampleGuessRoom
        ["A", "B", "C", "D"] "B" "D" "" = .acted s' ∧
      s'.round_scores.length =
        exampleResolvedStore.round_scores.length +
          (["A", "B", "C", "D"] : List String).length ∧
      s'.room.current_phase = some PHASE_ROUND_RESULT :=
  ⟨C6_unconditional_update.1 exampleGuessRoom
      { current_phase := some (some PHASE_GAME_OVER) },
    C6_unconditional_update.2 exampleResolvedStore exampleGuessRoom
      ["A", "B", "C", "D"] "B" "D" "" "C"
      [("A", 1000), ("B", 500), ("C", 250), ("D", 0)]
      (by decide) (by decide) (by decide) (by decide) (by decide)⟩

/-- C7 counterexample: a non-Mantri player (`C`) attempting the Mantri
guess during `MANTRI_GUESS` receives no `Unauthorized` error: the branch
renders a waiting view and returns with the store untouched. -/
theorem C7_counterexample :
    mantri_guess_step exampleWaitStore exampleGuessRoom ["A", "B", "C", "D"]
      "C" "D" "" = .noChange exampleWaitStore := by
  decide

/-- C7 (amended): every action attempted by a non-authorized actor — a
non-Mantri submitting the Mantri guess, a non-Raja submitting the Raja
guess, or a non-admin attempting an admin-only `ROUND_RESULT` transition —
leaves the store, including the room's phase, unchanged; no `Unauthorized`
error value exists in the code, the rejection being UI gating that shows
the actor a waiting view. -/
theorem C7_unauthorized_no_change :
    (∀ (s : Store) (fetched : Room) (players : List String)
        (actor chor_choice sipahi_pick m : String),
      players.find? (fun p => dget fetched.current_roles p == some "Mantri") =
        some m → actor ≠ m →
      mantri_guess_step s fetched players actor chor_choice sipahi_pick =
        .noChange s) ∧
    (∀ (s : Store) (fetched : Room) (players : List String)
        (actor rani_choice m : String),
      players.find? (fun p => dget fetched.current_roles p == some "Raja") =
        some m → actor ≠ m →
      raja_guess_step s fetched players actor rani_choice = .noChange s) ∧
    (∀ (s : Store) (fetched : Room) (players : List String) (actor : String)
        (act : AdminAction) (shuffled : List String),
      actor ≠ fetched.admin_name →
      round_result_step s fetched players actor act shuffled = .noChange s) := by
  refine ⟨?_, ?_, ?_⟩
  · intro s fetched players actor chor_choice sipahi_pick m hfind hne
    unfold mantri_guess_step
    by_cases hp : fetched.current_phase ≠ some PHASE_MANTRI_GUESS
    · rw [if_pos hp]
    · rw [if_neg hp, hfind]
      simp [hne]
  · intro s fetched players actor rani_choice m hfind hne
    unfold raja_guess_step
    by_cases hp : fetched.current_phase ≠ some PHASE_RAJA_GUESS
    · rw [if_pos hp]
    · rw [if_neg hp, hfind]
      simp [hne]
  · intro s fetched players actor act shuffled hne
    unfold round_result_step
    by_cases hp : fetched.current_phase ≠ some PHASE_ROUND_RESULT
    · rw [if_pos hp]
    · rw [if_neg hp, if_pos hne]

/-- C7 witness: the three unauthorized attempts at concrete inputs, all
returning the untouched store. -/
theorem C7_unauthorized_no_change_witness :
    mantri_guess_step exampleWaitStore exampleGuessRoom ["A", "B", "C", "D"]
      "D" "C" "" = .noChange exampleWaitStore ∧
    raja_guess_step exampleWaitStore exampleGuessRoom ["A", "B", "C", "D"]
      "B" "D" = .noChange exampleWaitStore ∧
    round_result_step exampleWaitStore exampleGuessRoom ["A", "B", "C", "D"]
      "B" AdminAction.advanceRound ["A", "B", "C", "D"] =
      .noChange exampleWaitStore :=
  ⟨C7_unauthorized_no_change.1 exampleWaitStore exampleGuessRoom
      ["A", "B", "C", "D"] "D" "C" "" "B" (by decide) (by decide),
    C7_unauthorized_no_change.2.1 exampleWaitStore exampleGuessRoom
      ["A", "B", "C", "D"] "B" "D" "A" (by decide) (by decide),
    C7_unauthorized_no_change.2.2 exampleWaitStore exampleGuessRoom
      ["A", "B", "C", "D"] "B" AdminAction.advanceRound ["A", "B", "C", "D"]
      (by decide)⟩

/-- A room snapshot showing `ROUND_RESULT` in round 1 of 2. -/
def exampleRoundResultRoom : Room :=
  { exampleGuessRoom with current_phase := some PHASE_ROUND_RESULT }

/-- A room snapshot showing `ROUND_RESULT` in the final round (2 of 2). -/
def exampleFinalRoundRoom : Room :=
  { exampleRoundResultRoom with current_round := 2 }

/-- C9: From `ROUND_RESULT`, the admin's advance-to-next-round action is
permitted only while `current_round` is strictly below the configured
round count; when it applies it increments the round index, re-invokes the
role assigner on the (shuffled) player names, clears all three pending
guesses and returns to `RAJA_REVEAL`.  When `current_round` equals the
round count, advancing is rejected (no state change) and only the
finish-game transition to `GAME_OVER` applies. -/
theorem C9_round_result_transitions :
    ∀ (s : Store) (fetched : Room) (players : List String) (actor : String)
      (shuffled : List String),
      fetched.current_phase = some PHASE_ROUND_RESULT →
      actor = fetched.admin_name →
      ((fetched.current_round < fetched.num_rounds →
        ∃ s', round_result_step s fetched players actor .advanceRound
            shuffled = .acted s' ∧
          s'.room.current_round = fetched.current_round + 1 ∧
          s'.room.current_phase = some PHASE_RAJA_REVEAL ∧
          s'.room.current_roles =
            compute_roles_for_round shuffled fetched.num_players ∧
          s'.room.mantri_chor_guess = none ∧
          s'.room.mantri_sipahi_guess = none ∧
          s'.room.raja_rani_guess = none) ∧
      (fetched.current_round = fetched.num_rounds →
        round_result_step s fetched players actor .advanceRound shuffled =
          .noChange s ∧
        ∃ s', round_result_step s fetched players actor .finishGame shuffled =
            .acted s' ∧ s'.room.current_phase = some PHASE_GAME_OVER)) := by
  intro s fetched players actor shuffled hphase hadmin
  have hp : ¬(fetched.current_phase ≠ some PHASE_ROUND_RESULT) := by
    simp [hphase]
  have ha : ¬(actor ≠ fetched.admin_name) := by simp [hadmin]
  constructor
  · intro hlt
    have hstep : round_result_step s fetched players actor .advanceRound
        shuffled = .acted (store_update_room s
          { current_round := some (fetched.current_round + 1),
            current_phase := some (some PHASE_RAJA_REVEAL),
            current_roles :=
              some (compute_roles_for_round shuffled fetched.num_players),
            mantri_chor_guess := some none,
            mantri_sipahi_guess := some none,
            raja_rani_guess := some none }) := by
      unfold round_result_step
      rw [if_neg hp, if_neg ha, if_pos hlt]
    refine ⟨_, hstep, ?_, ?_, ?_, ?_, ?_, ?_⟩ <;>
      simp [store_update_room, update_room, apply_room_updates,
        strip_admin_key]
  · intro heq
    have hnlt : ¬(fetched.current_round < fetched.num_rounds) := by omega
    constructor
    · unfold round_result_step
      rw [if_neg hp, if_neg ha, if_neg hnlt]
    · have hstep : round_result_step s fetched players actor .finishGame
          shuffled = .acted (store_update_room s
            { current_phase := some (some PHASE_GAME_OVER) }) := by
        unfold round_result_step
        rw [if_neg hp, if_neg ha, if_neg hnlt]
      refine ⟨_, hstep, ?_⟩
      simp [store_update_room, update_room, apply_room_updates,
        strip_admin_key]

/-- C9 witness: round 1 of 2 (advance applies) and round 2 of 2 (advance
rejected, finish applies), at concrete rooms. -/
theorem C9_round_result_transitions_witness :
    ((exampleRoundResultRoom.current_round <
        exampleRoundResultRoom.num_rounds →
      ∃ s', round_result_step exampleWaitStore exampleRoundResultRoom
          ["A", "B", "C", "D"] "A" .advanceRound ["B", "A", "D", "C"] =
          .acted s' ∧
        s'.room.current_round = exampleRoundResultRoom.current_round + 1 ∧
        s'.room.current_phase = some PHASE_RAJA_REVEAL ∧
        s'.room.current_roles = compute_roles_for_round ["B", "A", "D", "C"]
          exampleRoundResultRoom.num_players ∧
        s'.room.mantri_chor_guess = none ∧
        s'.room.mantri_sipahi_guess = none ∧
        s'.room.raja_rani_guess = none) ∧
     (exampleRoundResultRoom.current_round =
        exampleRoundResultRoom.num_rounds →
      round_result_step exampleWaitStore exampleRoundResultRoom
        ["A", "B", "C", "D"] "A" .advanceRound ["B", "A", "D", "C"] =
        .noChange exampleWaitStore ∧
      ∃ s', round_result_step exampleWaitStore exampleRoundResultRoom
          ["A", "B", "C", "D"] "A" .finishGame ["B", "A", "D", "C"] =
          .acted s' ∧ s'.room.current_phase = some PHASE_GAME_OVER)) ∧
    ((exampleFinalRoundRoom.current_round < exampleFinalRoundRoom.num_rounds →
      ∃ s', round_result_step exampleWaitStore exampleFinalRoundRoom
          ["A", "B", "C", "D"] "A" .advanceRound ["B", "A", "D", "C"] =
          .acted s' ∧
        s'.room.current_round = exampleFinalRoundRoom.current_round + 1 ∧
        s'.room.current_phase = some PHASE_RAJA_REVEAL ∧
        s'.room.current_roles = compute_roles_for_round ["B", "A", "D", "C"]
          exampleFinalRoundRoom.num_players ∧
        s'.room.mantri_chor_guess = none ∧
        s'.room.mantri_sipahi_guess = none ∧
        s'.room.raja_rani_guess = none) ∧
     (exampleFinalRoundRoom.current_round = exampleFinalRoundRoom.num_rounds →
      round_result_step exampleWaitStore exampleFinalRoundRoom
        ["A", "B", "C", "D"] "A" .advanceRound ["B", "A", "D", "C"] =
        .noChange exampleWaitStore ∧
      ∃ s', round_result_step exampleWaitStore exampleFinalRoundRoom
          ["A", "B", "C", "D"] "A" .finishGame ["B", "A", "D", "C"] =
          .acted s' ∧ s'.room.current_phase = some PHASE_GAME_OVER)) :=
  ⟨C9_round_result_transitions exampleWaitStore exampleRoundResultRoom
      ["A", "B", "C", "D"] "A" ["B", "A", "D", "C"] (by decide) (by decide),
    C9_round_result_transitions exampleWaitStore exampleFinalRoundRoom
      ["A", "B", "C", "D"] "A" ["B", "A", "D", "C"] (by decide) (by decide)⟩

/-- C10: `update_room` strips any `admin_name` key from the updates dict
before applying it, so the admin identity designated at room creation is
invariant across every room mutation. -/
theorem C10_admin_name_invariant :
    ∀ (r : Room) (u : RoomUpdates),
      (update_room r u).admin_name = r.admin_name := by
  intro r u
  simp [update_room, apply_room_updates, strip_admin_key]
